import Mathlib

/-!
Verification development for the rpt-minigames-client repository.

The TypeScript sources are shallowly embedded: each definition below translates
one function or class of the repository (file and line references in the doc
comments).  Reactive (rxjs) plumbing is embedded through its observable effect:
per-step subjects become per-step data, the rxjs `race` operator becomes
"earliest event wins, the losing subscription is torn down", and asynchronous
callbacks become explicit event timelines.  Code that lives in the external
`rpt-webapp-client` library (CommandParser, Availability, the RPTL state
machine) is not part of this repository's `src`; where a claim depends on it,
the corresponding definition is modelled from the specification's description
of the wire grammar and noted as such.
-/

namespace RptMini

/-- Availability data carried by an `AVAILABILITY` status response.
Modelled from the spec: the `Availability` class of the external
rpt-webapp-client library holds the current actor count and the actor limit
(spec section 3, Server Status Snapshot: currentCount and capacity; the repo
constructs it as `new Availability(currentActors, actorsLimit)`). -/
structure Availability where
  currentActors : Nat
  actorsLimit : Nat
deriving DecidableEq, Repr

/-- Translation of the `gameType` switch in the `GameServer` constructor
(game-server.ts lines 18-32): codes a, b, c extend to the full game names,
any other code is kept as is. -/
def gameNameOf (gameType : String) : String :=
  if gameType = "a" then "Açores"
  else if gameType = "b" then "Bermudes"
  else if gameType = "c" then "Canaries"
  else gameType

/-- Server status snapshot published by the scan (class `GameServer`,
game-server.ts lines 7-33): server name, extended game name, and the optional
status retrieved by the checkout (`undefined` when the round-trip failed). -/
structure GameServer where
  name : String
  gameName : String
  status : Option Availability
deriving DecidableEq, Repr

/-- The `GameServer` constructor (game-server.ts line 18): stores the name and
status and computes `gameName` from the game type code. -/
def mkGameServer (name gameType : String) (status : Option Availability) : GameServer :=
  ⟨name, gameNameOf gameType, status⟩

/-- One Server Descriptor of the configured `servers.json` list
(spec section 3): server name, single-letter game kind code, port. -/
structure ServerData where
  name : String
  game : String
  port : Nat
deriving DecidableEq, Repr

/-! ### Game server URL resolution (game-server-resolution.service.ts) -/

/-- Scheme selection in the `GameServerResolutionService` constructor
(game-server-resolution.service.ts lines 17-31): `http:` maps to `ws`,
`https:` maps to `wss`, any other page protocol reports the error to the
runtime errors handler and throws `URIError`, so the service is never
constructed. -/
def resolutionProtocol (locationProtocol : String) : Except String String :=
  if locationProtocol = "http:" then .ok "ws"
  else if locationProtocol = "https:" then .ok "wss"
  else .error ("Unknown protocol: " ++ locationProtocol)

/-- Translation of `GameServerResolutionService.resolve`
(game-server-resolution.service.ts lines 41-44): the template literal
building `protocol://hostname:port/`. -/
def resolveUrl (protocol hostname : String) (port : Nat) : String :=
  protocol ++ "://" ++ hostname ++ ":" ++ Nat.repr port ++ "/"

/-- Constructing the resolution service for a page protocol and then resolving
a port: no endpoint is resolved when construction already failed. -/
def resolveFor (locationProtocol hostname : String) (port : Nat) : Except String String :=
  (resolutionProtocol locationProtocol).map (fun p => resolveUrl p hostname port)

theorem ws_prefix (rest : String) : ("ws" : String) ++ "://" ++ rest = "ws://" ++ rest := by
  rw [show ("ws" : String) ++ "://" = "ws://" from rfl]

theorem wss_prefix (rest : String) : ("wss" : String) ++ "://" ++ rest = "wss://" ++ rest := by
  rw [show ("wss" : String) ++ "://" = "wss://" from rfl]

/-- C6: for every port number p, a page origin with protocol http: resolves
port p to exactly ws://hostname:p/, a page origin with protocol https:
resolves it to wss://hostname:p/, and for any other protocol the service
constructor fails with an error, so no endpoint is resolved. -/
theorem resolution_maps_protocols :
    (∀ (hostname : String) (port : Nat),
        resolveFor "http:" hostname port =
          .ok ("ws://" ++ hostname ++ ":" ++ Nat.repr port ++ "/"))
  ∧ (∀ (hostname : String) (port : Nat),
        resolveFor "https:" hostname port =
          .ok ("wss://" ++ hostname ++ ":" ++ Nat.repr port ++ "/"))
  ∧ (∀ proto : String, proto ≠ "http:" → proto ≠ "https:" →
        resolutionProtocol proto = .error ("Unknown protocol: " ++ proto)) := by
  refine ⟨fun hostname port => ?_, fun hostname port => ?_, fun proto h1 h2 => ?_⟩
  · show Except.map _ _ = _
    rw [show resolutionProtocol "http:" = .ok "ws" from rfl]
    simp [Except.map, resolveUrl, String.append_assoc, ws_prefix]
  · show Except.map _ _ = _
    rw [show resolutionProtocol "https:" = .ok "wss" from rfl]
    simp [Except.map, resolveUrl, String.append_assoc, wss_prefix]
  · simp [resolutionProtocol, h1, h2]

/-- Witness for C6: the file: protocol (page loaded from local disk) is
neither http: nor https: and makes service construction fail. -/
theorem resolution_maps_protocols_witness :
    ("file:" : String) ≠ "http:" ∧ ("file:" : String) ≠ "https:" ∧
      resolutionProtocol "file:" = .error ("Unknown protocol: " ++ "file:") :=
  ⟨by decide, by decide, resolution_maps_protocols.2.2 "file:" (by decide) (by decide)⟩

/-! ### The checkout scan (servers-list.service.ts, race-based design)

One per-server step of `ServersListService.updateNext` (lines 55-135) races
three outcomes: the timeout operator emitting `undefined`, the `AVAILABILITY`
status response, and the transport reaching `DISCONNECTED` before a status
(which pushes `undefined` into the step's `retrievedStatus` subject).  A
synchronous exception while creating the connection or beginning the session
(the catch block, lines 122-133) also pushes `undefined`.  The step's events
are modelled as a timeline with the (abstract) times at which each of those
sources fires; rxjs `race` semantics make the earliest emission win and tear
down the losing subscriptions. -/

/-- Timeline of one per-server checkout step: whether the connection attempt
threw synchronously, when the pluggable delay operator fires, and when (if
ever) the status response and the disconnection are observed by the step's
subscriptions. -/
structure StepTimeline where
  connectError : Bool
  timeoutAt : Nat
  statusAt : Option (Nat × Availability)
  disconnectAt : Option Nat
deriving DecidableEq, Repr

/-- Status value with which the step's outer race settles (updateNext lines
66-85): the `AVAILABILITY` response is delivered only when it arrives before
the timeout and before a disconnection, and only if the connection did not
fail synchronously; in every other case the race settles with `undefined`. -/
def stepOutcome (t : StepTimeline) : Option Availability :=
  if t.connectError then none
  else
    match t.statusAt with
    | some (ts, a) =>
        if ts < t.timeoutAt ∧ ∀ d ∈ t.disconnectAt, ts < d then some a else none
    | none => none

/-- Boolean form of "a live status round-trip succeeded before its deadline":
the step did not fail synchronously and its status response arrived strictly
before both the timeout and any disconnection. -/
def statusReceivedInTime (t : StepTimeline) : Bool :=
  !t.connectError &&
    match t.statusAt with
    | some (ts, _) => decide (ts < t.timeoutAt) && t.disconnectAt.all (fun d => decide (ts < d))
    | none => false

/-- Recursion of `ServersListService.updateNext` (servers-list.service.ts
lines 55-135): while the server list is not exhausted, take the next server
descriptor (`servers[this.currentServer++]`, rendered as the head of the
not-yet-processed suffix), settle its step, append the resulting `GameServer`
to the accumulated array and recurse; when the list is exhausted
(`this.currentServer === servers.length`) the accumulated array is published.
`i` is the index of the head of `remaining` in the full list, used to look up
the step's timeline. -/
def updateNext (script : Nat → StepTimeline) :
    Nat → List ServerData → List GameServer → List GameServer
  | _, [], acc => acc
  | i, sd :: rest, acc =>
      updateNext script (i + 1) rest (acc ++ [mkGameServer sd.name sd.game (stepOutcome (script i))])

/-- A whole scan as started by `update()` (servers-list.service.ts lines
154-162): `currentServer` starts at 0 with an empty accumulated array. -/
def scanResults (servers : List ServerData) (script : Nat → StepTimeline) : List GameServer :=
  updateNext script 0 servers []

/-- Specification-side shape of the published array, following the spec's
words for claim C1: exactly one snapshot per Server Descriptor, in list
order, the i-th built from descriptor i and the outcome of step i. -/
def specSnapshots (script : Nat → StepTimeline) : Nat → List ServerData → List GameServer
  | _, [] => []
  | i, sd :: rest =>
      mkGameServer sd.name sd.game (stepOutcome (script i)) :: specSnapshots script (i + 1) rest

theorem updateNext_eq_append (script : Nat → StepTimeline) :
    ∀ (rem : List ServerData) (i : Nat) (acc : List GameServer),
      updateNext script i rem acc = acc ++ specSnapshots script i rem := by
  intro rem
  induction rem with
  | nil => intro i acc; simp [updateNext, specSnapshots]
  | cons sd rest ih =>
      intro i acc
      simp [updateNext, specSnapshots, ih]

theorem specSnapshots_length (script : Nat → StepTimeline) :
    ∀ (rem : List ServerData) (i : Nat), (specSnapshots script i rem).length = rem.length := by
  intro rem
  induction rem with
  | nil => intro i; rfl
  | cons sd rest ih => intro i; simp [specSnapshots, ih]

theorem stepOutcome_isSome (t : StepTimeline) :
    (stepOutcome t).isSome = statusReceivedInTime t := by
  unfold stepOutcome statusReceivedInTime
  cases hc : t.connectError
  · cases hs : t.statusAt with
    | none => simp
    | some p =>
        obtain ⟨ts, a⟩ := p
        cases hd : t.disconnectAt with
        | none => by_cases h1 : ts < t.timeoutAt <;> simp [h1, Option.all]
        | some d =>
            by_cases h1 : ts < t.timeoutAt <;> by_cases h2 : ts < d <;>
              simp [h1, h2, Option.all]
  · simp

instance : Inhabited GameServer := ⟨⟨"", "", none⟩⟩

theorem specSnapshots_getD (script : Nat → StepTimeline) :
    ∀ (rem : List ServerData) (i j : Nat), j < rem.length →
      (specSnapshots script i rem).getD j default =
        mkGameServer (rem.getD j ⟨"", "", 0⟩).name (rem.getD j ⟨"", "", 0⟩).game
          (stepOutcome (script (i + j))) := by
  intro rem
  induction rem with
  | nil => intro i j hj; exact absurd hj (by simp)
  | cons sd rest ih =>
      intro i j hj
      cases j with
      | zero => simp [specSnapshots]
      | succ j =>
          have hjr : j < rest.length := by simpa using hj
          have hres := ih (i + 1) j hjr
          have harith : i + 1 + j = i + (j + 1) := by omega
          rw [harith] at hres
          simpa [specSnapshots] using hres

/-- Configured server list of the claim's concrete instance: descriptors
A (port 35555) and B (port 35556). -/
def exampleServers : List ServerData :=
  [⟨"A", "a", 35555⟩, ⟨"B", "a", 35556⟩]

/-- Step timelines of the claim's concrete instance: server A answers
`AVAILABILITY 1 2` before the timeout, server B times out. -/
def exampleScript : Nat → StepTimeline := fun i =>
  if i = 0 then ⟨false, 10, some (1, ⟨1, 2⟩), none⟩ else ⟨false, 10, none, none⟩

/-- C1: a completed scan publishes exactly one GameServer snapshot per Server
Descriptor, in list order, the i-th built from descriptor i and the outcome
of step i; a snapshot's availability is defined iff a status response was
received before the step's timeout and disconnection; in particular for
descriptors A and B with a response `AVAILABILITY 1 2` for A and a timeout for
B the published array is exactly A's snapshot with availability (1, 2)
followed by B's snapshot with no availability. -/
theorem scan_publishes_one_snapshot_per_descriptor :
    (∀ (servers : List ServerData) (script : Nat → StepTimeline),
        scanResults servers script = specSnapshots script 0 servers
      ∧ (scanResults servers script).length = servers.length)
  ∧ (∀ t : StepTimeline, (stepOutcome t).isSome = statusReceivedInTime t)
  ∧ scanResults exampleServers exampleScript =
      [⟨"A", "Açores", some ⟨1, 2⟩⟩, ⟨"B", "Açores", none⟩] := by
  refine ⟨fun servers script => ⟨?_, ?_⟩, stepOutcome_isSome, by rfl⟩
  · simpa using updateNext_eq_append script servers 0 []
  · rw [scanResults, updateNext_eq_append script servers 0 []]
    simpa using specSnapshots_length script servers 0

theorem updateNext_congr {s1 s2 : Nat → StepTimeline}
    (h : ∀ i, stepOutcome (s1 i) = stepOutcome (s2 i)) :
    ∀ (rem : List ServerData) (i : Nat) (acc : List GameServer),
      updateNext s1 i rem acc = updateNext s2 i rem acc := by
  intro rem
  induction rem with
  | nil => intro i acc; rfl
  | cons sd rest ih => intro i acc; simp [updateNext, h i, ih]

/-- C4: a status response delivered only after a step's timeout has fired
changes nothing: the scan with the late response added to step k's timeline
publishes exactly the same array, snapshot of step k and snapshots of all
later steps included, as the scan without it. -/
theorem late_status_after_timeout_ignored
    (servers : List ServerData) (script : Nat → StepTimeline) (k ts : Nat) (a : Availability)
    (hnone : (script k).statusAt = none) (hlate : (script k).timeoutAt ≤ ts) :
    scanResults servers
        (fun i => if i = k then { script k with statusAt := some (ts, a) } else script i)
      = scanResults servers script := by
  refine updateNext_congr (fun i => ?_) servers 0 []
  by_cases hik : i = k
  · subst hik
    have hn : ¬ts < (script i).timeoutAt := by omega
    cases hc : (script i).connectError with
    | true => simp [stepOutcome, hc]
    | false => simp [stepOutcome, hc, hnone, hn]
  · simp [hik]

/-- Step timelines where every server times out with no status response. -/
def allTimeoutScript : Nat → StepTimeline := fun _ => ⟨false, 10, none, none⟩

/-- Witness for C4: adding to step 1 of a two-server scan a status response
arriving at the timeout deadline leaves the published array unchanged. -/
theorem late_status_after_timeout_ignored_witness :
    (allTimeoutScript 1).statusAt = none ∧ (allTimeoutScript 1).timeoutAt ≤ 10 ∧
      scanResults exampleServers
          (fun i => if i = 1 then { allTimeoutScript 1 with statusAt := some (10, ⟨1, 2⟩) }
            else allTimeoutScript i)
        = scanResults exampleServers allTimeoutScript :=
  ⟨rfl, by decide,
    late_status_after_timeout_ignored exampleServers allTimeoutScript 1 10 ⟨1, 2⟩ rfl (by decide)⟩

/-- C5: timeouts, connection failures (including synchronous exceptions while
opening the connection or beginning the session) and disconnections before
the status response are not errors of the scan: the scan is a total function
that publishes one snapshot per configured server, and every step whose
status round-trip did not succeed records a snapshot with no availability. -/
theorem scan_absorbs_step_failures (servers : List ServerData) (script : Nat → StepTimeline) :
    (scanResults servers script).length = servers.length
  ∧ ∀ j : Nat, j < servers.length →
      statusReceivedInTime (script j) = false →
      ((scanResults servers script).getD j default).status = none := by
  have hlen : (scanResults servers script).length = servers.length := by
    rw [scanResults, updateNext_eq_append script servers 0 []]
    simpa using specSnapshots_length script servers 0
  refine ⟨hlen, fun j hj2 hfail => ?_⟩
  have hrw : scanResults servers script = specSnapshots script 0 servers := by
    simpa using updateNext_eq_append script servers 0 []
  have hget := specSnapshots_getD script servers 0 j hj2
  have hnone : stepOutcome (script j) = none := by
    cases ho : stepOutcome (script j) with
    | none => rfl
    | some v =>
        have hs := stepOutcome_isSome (script j)
        rw [ho, hfail] at hs
        simp at hs
  rw [hrw, hget]
  simpa [mkGameServer] using hnone

/-- Witness for C5: in an all-timeout two-server scan, step 0 failed its
round-trip and its published snapshot has no availability. -/
theorem scan_absorbs_step_failures_witness :
    0 < exampleServers.length ∧ statusReceivedInTime (allTimeoutScript 0) = false ∧
      ((scanResults exampleServers allTimeoutScript).getD 0 default).status = none :=
  ⟨by decide, by decide,
    (scan_absorbs_step_failures exampleServers allTimeoutScript).2 0 (by decide) (by decide)⟩

/-! ### The busy gate of `update()` (servers-list.service.ts lines 137-162)

Observable state of the `ServersListService` across a scan: the
`currentServer` index (`undefined` iff no scan is in progress) and the arrays
published so far through the `serversStatus` subject.  The accumulated array
travels through the recursion's `updatedStatus` parameter in the source; the
machine keeps it in a field so that the state passing is explicit. -/

/-- Mutable state of the `ServersListService`. -/
structure ScanState where
  currentServer : Option Nat
  acc : List GameServer
  published : List (List GameServer)
deriving DecidableEq, Repr

/-- Translation of `isUpdating()` (servers-list.service.ts lines 140-142):
no server index means nothing to update. -/
def isUpdating (s : ScanState) : Bool :=
  s.currentServer.isSome

/-- Entry of one `updateNext` activation (servers-list.service.ts lines
59-65): if `currentServer` equals the list length, the update is marked as
done (`currentServer := undefined`) and the accumulated array is pushed into
the subject; otherwise the index is incremented past the server now in
flight (`servers[this.currentServer++]`). -/
def updateNextEntry (servers : List ServerData) (s : ScanState) : ScanState :=
  match s.currentServer with
  | some i =>
      if i = servers.length then
        { s with currentServer := none, published := s.published ++ [s.acc] }
      else { s with currentServer := some (i + 1) }
  | none => s

/-- Settling of the step in flight (the race subscriber, servers-list.
service.ts lines 73-85): the snapshot for the server in flight (index
`currentServer - 1`, since the index was already incremented at entry) is
appended and the next `updateNext` activation runs. -/
def settleStep (servers : List ServerData) (s : ScanState) (outcome : Option Availability) :
    ScanState :=
  match s.currentServer with
  | some i =>
      let sd := servers.getD (i - 1) ⟨"", "", 0⟩
      updateNextEntry servers { s with acc := s.acc ++ [mkGameServer sd.name sd.game outcome] }
  | none => s

/-- Translation of `update()` (servers-list.service.ts lines 154-162): the
busy check and the flag assignment form one synchronous check-and-set with no
suspension point between them; when busy, `ServersListBusy` (message
'Already updating servers list') is thrown and the state is returned
unchanged; otherwise `currentServer` starts at 0 and the first `updateNext`
activation runs. -/
def update (servers : List ServerData) (s : ScanState) : Except String Unit × ScanState :=
  if isUpdating s then (.error "Already updating servers list", s)
  else (.ok (), updateNextEntry servers { s with currentServer := some 0, acc := [] })

/-- Delivery of one step outcome after another, driving the asynchronous
recursion of `updateNext` to completion. -/
def settleAll (servers : List ServerData) (s : ScanState)
    (outcomes : List (Option Availability)) : ScanState :=
  outcomes.foldl (settleStep servers) s

/-- State reached when a scan started on state `s` has received one outcome
per configured server. -/
def afterScan (servers : List ServerData) (s : ScanState)
    (outcomes : List (Option Availability)) : ScanState :=
  settleAll servers (update servers s).2 outcomes

theorem settleAll_completes :
    ∀ (outs : List (Option Availability)) (servers : List ServerData)
      (c : Nat) (acc : List GameServer) (pub : List (List GameServer)),
      c + outs.length = servers.length + 1 → 1 ≤ c → c ≤ servers.length →
      ∃ res, settleAll servers ⟨some c, acc, pub⟩ outs = ⟨none, res, pub ++ [res]⟩ := by
  intro outs
  induction outs with
  | nil => intro servers c acc pub hcount h1 h2; simp at hcount; omega
  | cons o rest ih =>
      intro servers c acc pub hcount h1 h2
      by_cases hc : c = servers.length
      · have hrest : rest = [] := by
          have : rest.length = 0 := by simp at hcount; omega
          exact List.length_eq_zero.mp this
        subst hrest
        refine ⟨acc ++ [mkGameServer (servers.getD (c - 1) ⟨"", "", 0⟩).name
          (servers.getD (c - 1) ⟨"", "", 0⟩).game o], ?_⟩
        simp [settleAll, settleStep, updateNextEntry, hc]
      · have hlt : c < servers.length := by omega
        have step : settleStep servers ⟨some c, acc, pub⟩ o =
            ⟨some (c + 1), acc ++ [mkGameServer (servers.getD (c - 1) ⟨"", "", 0⟩).name
              (servers.getD (c - 1) ⟨"", "", 0⟩).game o], pub⟩ := by
          simp [settleStep, updateNextEntry, hc]
        have : settleAll servers ⟨some c, acc, pub⟩ (o :: rest)
            = settleAll servers (settleStep servers ⟨some c, acc, pub⟩ o) rest := rfl
        rw [this, step]
        exact ih servers (c + 1) _ pub (by simp at hcount ⊢; omega) (by omega) (by omega)

/-- C3: calling `update()` while a scan is in progress (its result not yet
published) throws `ServersListBusy` and leaves the state unchanged - the
busy check and flag assignment being one atomic transition of the model;
calling it while idle succeeds, and after a scan has run to completion
(one outcome per configured server) the service is idle again, has published
exactly one new result array, and a further `update()` call succeeds. -/
theorem update_busy_gate :
    (∀ (servers : List ServerData) (s : ScanState), isUpdating s = true →
        update servers s = (.error "Already updating servers list", s))
  ∧ (∀ (servers : List ServerData) (s : ScanState), isUpdating s = false →
        (update servers s).1 = .ok ())
  ∧ (∀ (servers : List ServerData) (s : ScanState) (outs : List (Option Availability)),
        isUpdating s = false → outs.length = servers.length →
        isUpdating (afterScan servers s outs) = false
        ∧ (∃ res, (afterScan servers s outs).published = s.published ++ [res])
        ∧ (update servers (afterScan servers s outs)).1 = .ok ()) := by
  have hbusy : ∀ (servers : List ServerData) (s : ScanState), isUpdating s = true →
      update servers s = (.error "Already updating servers list", s) := by
    intro servers s h
    simp [update, h]
  have hidle : ∀ (servers : List ServerData) (s : ScanState), isUpdating s = false →
      (update servers s).1 = .ok () := by
    intro servers s h
    simp [update, h]
  refine ⟨hbusy, hidle, fun servers s outs h hlen => ?_⟩
  have hstart : (update servers s).2
      = updateNextEntry servers { s with currentServer := some 0, acc := [] } := by
    simp [update, h]
  by_cases hn : servers.length = 0
  · have houts : outs = [] := List.length_eq_zero.mp (by omega)
    subst houts
    have : afterScan servers s [] = ⟨none, [], s.published ++ [[]]⟩ := by
      simp [afterScan, settleAll, hstart, updateNextEntry, hn]
    rw [this] at *
    exact ⟨rfl, ⟨[], rfl⟩, by simp [update, isUpdating]⟩
  · have hentry : (update servers s).2 = ⟨some 1, [], s.published⟩ := by
      rw [hstart]
      simp [updateNextEntry]
      intro habs
      omega
    have hrun := settleAll_completes outs servers 1 [] s.published
      (by omega) (by omega) (by omega)
    obtain ⟨res, hres⟩ := hrun
    have hdone : afterScan servers s outs = ⟨none, res, s.published ++ [res]⟩ := by
      rw [afterScan, hentry, hres]
    rw [hdone]
    exact ⟨rfl, ⟨res, rfl⟩, by simp [update, isUpdating]⟩

/-- Witness for C3: on two configured servers, an in-flight scan state makes
`update()` throw busy and return the state unchanged, while an idle state
runs a two-outcome scan to completion and is idle again afterwards. -/
theorem update_busy_gate_witness :
    (isUpdating ⟨some 1, [], []⟩ = true
      ∧ update exampleServers ⟨some 1, [], []⟩
          = (.error "Already updating servers list", ⟨some 1, [], []⟩))
  ∧ (isUpdating ⟨none, [], []⟩ = false
      ∧ ([none, none] : List (Option Availability)).length = exampleServers.length
      ∧ isUpdating (afterScan exampleServers ⟨none, [], []⟩ [none, none]) = false) :=
  ⟨⟨rfl, update_busy_gate.1 exampleServers ⟨some 1, [], []⟩ rfl⟩,
   ⟨rfl, by decide,
    (update_busy_gate.2.2 exampleServers ⟨none, [], []⟩ [none, none] rfl (by decide)).1⟩⟩

/-! ### Session teardown ordering (claim C2)

Trace of the session-level actions a step performs, for the race-based
`updateNext` (servers-list.service.ts) and for `ServerStatusService.checkout`
(server-status.service.ts). -/

/-- Actions observable on the shared RPTL session during checkout steps. -/
inductive ScanAction where
  | beginSession (serverIdx : Nat)
  | connectFailed (serverIdx : Nat)
  | endSession (serverIdx : Nat)
  | waitDisconnected (serverIdx : Nat)
  | pushResult (serverIdx : Nat)
  | publish
deriving DecidableEq, Repr

/-- Minimum of a number and an optional number. -/
def minOpt (n : Nat) : Option Nat → Nat
  | none => n
  | some m => min n m

/-- Time at which a step's outer race settles: immediately for a synchronous
connection failure, otherwise at the earliest of the timeout, the status
response and the disconnection. -/
def settleTime (t : StepTimeline) : Nat :=
  if t.connectError then 0
  else minOpt (minOpt t.timeoutAt (t.statusAt.map Prod.fst)) t.disconnectAt

/-- Whether `isSessionRunning()` holds when the step's race settles
(servers-list.service.ts line 76): the connection succeeded and no
disconnection was observed up to the settle time. -/
def sessionRunningAtSettle (t : StepTimeline) : Bool :=
  !t.connectError && t.disconnectAt.all (fun d => decide (settleTime t < d))

/-- Session actions of one step of the race-based `updateNext`
(servers-list.service.ts lines 63-133): the session is begun (or the attempt
fails synchronously, lines 122-133); when the race settles, `endSession` is
called if the session is still running (lines 76-78) and the recursion
advances immediately - nothing between the `endSession` call and the next
step's `beginSession` subscribes to or waits for the `DISCONNECTED` state. -/
def stepActions (i : Nat) (t : StepTimeline) : List ScanAction :=
  if t.connectError then [.connectFailed i]
  else if sessionRunningAtSettle t then [.beginSession i, .endSession i]
  else [.beginSession i]

/-- Session-action trace of a whole race-based scan (the `updateNext`
recursion), ending with the publication of the result array. -/
def scanTrace (script : Nat → StepTimeline) : Nat → List ServerData → List ScanAction
  | _, [] => [.publish]
  | i, _ :: rest => stepActions i (script i) ++ scanTrace script (i + 1) rest

/-- Session actions of one `ServerStatusService.checkout` operation
(server-status.service.ts lines 76-138) on the same step timeline: when the
race settles with the session still running, this service subscribes to the
`DISCONNECTED` state, calls `endSession`, and pushes its result only once the
disconnection is confirmed (lines 88-106). -/
def checkoutActions (i : Nat) (t : StepTimeline) : List ScanAction :=
  if t.connectError then [.connectFailed i, .pushResult i]
  else if sessionRunningAtSettle t then
    [.beginSession i, .endSession i, .waitDisconnected i, .pushResult i]
  else [.beginSession i, .pushResult i]

/-- C2 (code bug evidence): in a two-server scan where both steps time out
with their sessions still open, the race-based `updateNext` closes each
session and begins the next server's session immediately: its trace contains
no waiting for the `DISCONNECTED` state at all, whereas a
`ServerStatusService.checkout` operation for the same step timeline does wait
for the confirmed disconnection between `endSession` and pushing its
result. -/
theorem scan_advances_without_waiting_disconnected :
    scanTrace allTimeoutScript 0 exampleServers =
      [.beginSession 0, .endSession 0, .beginSession 1, .endSession 1, .publish]
  ∧ (scanTrace allTimeoutScript 0 exampleServers).all
      (fun a => match a with
        | ScanAction.waitDisconnected _ => false
        | _ => true) = true
  ∧ checkoutActions 0 (allTimeoutScript 0) =
      [.beginSession 0, .endSession 0, .waitDisconnected 0, .pushResult 0] :=
  ⟨rfl, rfl, rfl⟩

/-! ### Wire tokens and numeric arguments

Modelled from the spec: a SER line is a sequence of whitespace-delimited
tokens, and each sub-service payload grammar is an ordered scheme of named,
typed arguments consumed by the external CommandParser, a non-numeric token
where a number is expected being a parse error (spec section 4.2).  A line is
represented by its token list; a numeric token is the decimal integer
notation produced by the JS template-literal conversion of an integer and
accepted by the Number conversion. -/

/-- Fuel-driven digit expansion: one decimal digit is split off per fuel
step, the fuel being an upper bound on the value so that it never runs
out. -/
def natDigitsAux : Nat → Nat → List Char
  | 0, n => [Char.ofNat (48 + n % 10)]
  | fuel + 1, n =>
      if n < 10 then [Char.ofNat (48 + n)]
      else natDigitsAux fuel (n / 10) ++ [Char.ofNat (48 + n % 10)]

/-- Decimal digit characters of `n`, most significant first (no sign, no
leading zeros), as produced by the JS number-to-string conversion for
non-negative integers. -/
def natDigits (n : Nat) : List Char :=
  natDigitsAux n n

/-- Predicate for a decimal digit character. -/
def isDigitChar (c : Char) : Bool :=
  48 ≤ c.toNat && c.toNat ≤ 57

/-- Numeric value of a digit string, most significant first. -/
def digitsVal (cs : List Char) : Nat :=
  cs.foldl (fun acc c => acc * 10 + (c.toNat - 48)) 0

/-- Decimal token for a non-negative integer. -/
def natToken (n : Nat) : String :=
  ⟨natDigits n⟩

/-- Parsing a token as a non-negative decimal integer: fails on an empty or
non-numeric token. -/
def parseNatToken (s : String) : Option Nat :=
  if s.data.isEmpty then none
  else if s.data.all isDigitChar then some (digitsVal s.data) else none

/-- Decimal token for an integer, as produced by the JS template-literal
conversion: a minus sign followed by the digits for negative values. -/
def intToken (i : Int) : String :=
  if i < 0 then "-" ++ natToken i.natAbs else natToken i.toNat

/-- Parsing a token as a decimal integer: an optional leading minus sign
followed by a non-empty digit string. -/
def parseIntToken (s : String) : Option Int :=
  if s.data.head? = some '-' then
    (parseNatToken ⟨s.data.tail⟩).map (fun n => -(n : Int))
  else
    (parseNatToken s).map (fun n => (n : Int))

theorem toNat_ofNat_digit (k : Nat) (h : k < 10) : (Char.ofNat (48 + k)).toNat = 48 + k := by
  interval_cases k <;> rfl

theorem natDigitsAux_ne_nil (fuel n : Nat) : natDigitsAux fuel n ≠ [] := by
  cases fuel with
  | zero => simp [natDigitsAux]
  | succ fuel => by_cases h : n < 10 <;> simp [natDigitsAux, h]

theorem natDigits_ne_nil (n : Nat) : natDigits n ≠ [] :=
  natDigitsAux_ne_nil n n

theorem natDigitsAux_all_digits :
    ∀ fuel n : Nat, (natDigitsAux fuel n).all isDigitChar = true := by
  intro fuel
  induction fuel with
  | zero =>
      intro n
      have hmod : n % 10 < 10 := Nat.mod_lt _ (by omega)
      simp [natDigitsAux, isDigitChar, toNat_ofNat_digit _ hmod]
      omega
  | succ fuel ih =>
      intro n
      by_cases h : n < 10
      · simp [natDigitsAux, h, isDigitChar, toNat_ofNat_digit n h]
        omega
      · have hmod : n % 10 < 10 := Nat.mod_lt _ (by omega)
        simp [natDigitsAux, h, List.all_append, ih (n / 10), isDigitChar,
          toNat_ofNat_digit _ hmod]
        omega

theorem natDigits_all_digits (n : Nat) : (natDigits n).all isDigitChar = true :=
  natDigitsAux_all_digits n n

theorem digitsVal_natDigitsAux :
    ∀ fuel n : Nat, n ≤ fuel → digitsVal (natDigitsAux fuel n) = n := by
  intro fuel
  induction fuel with
  | zero =>
      intro n hn
      have hn0 : n = 0 := by omega
      subst hn0
      simp [natDigitsAux, digitsVal]
  | succ fuel ih =>
      intro n hn
      by_cases h : n < 10
      · simp [natDigitsAux, h, digitsVal, toNat_ofNat_digit n h]
      · have hmod : n % 10 < 10 := Nat.mod_lt _ (by omega)
        have hdiv : n / 10 ≤ fuel := by omega
        simp only [natDigitsAux, if_neg h, digitsVal, List.foldl_append,
          List.foldl_cons, List.foldl_nil]
        have hrec := ih (n / 10) hdiv
        rw [digitsVal] at hrec
        rw [hrec, toNat_ofNat_digit _ hmod]
        omega

theorem digitsVal_natDigits (n : Nat) : digitsVal (natDigits n) = n :=
  digitsVal_natDigitsAux n n (Nat.le_refl n)

theorem parseNatToken_natToken (n : Nat) : parseNatToken (natToken n) = some n := by
  rw [parseNatToken, natToken]
  have h1 : natDigits n ≠ [] := natDigits_ne_nil n
  have h2 : (natDigits n).all isDigitChar = true := natDigits_all_digits n
  have hE : (natDigits n).isEmpty = false := by
    cases hnd : natDigits n with
    | nil => exact absurd hnd h1
    | cons d rest => rfl
  simp only [show (String.mk (natDigits n)).data = natDigits n from rfl]
  simp [hE, h2, digitsVal_natDigits n]

theorem natDigits_head_digit (n : Nat) (c : Char)
    (hc : (natDigits n).head? = some c) : isDigitChar c = true := by
  have h2 := natDigits_all_digits n
  cases hnd : natDigits n with
  | nil => rw [hnd] at hc; simp at hc
  | cons d rest =>
      rw [hnd] at hc h2
      simp at hc h2
      subst hc
      exact h2.1

theorem parseIntToken_intToken (i : Int) : parseIntToken (intToken i) = some i := by
  by_cases hneg : i < 0
  · have hdata : (intToken i).data = '-' :: natDigits i.natAbs := by
      rw [intToken, if_pos hneg]
      rfl
    rw [parseIntToken, hdata]
    have hpn : parseNatToken ⟨natDigits i.natAbs⟩ = some i.natAbs :=
      parseNatToken_natToken i.natAbs
    have habs : -((i.natAbs : Int)) = i := by omega
    rw [if_pos (show ('-' :: natDigits i.natAbs).head? = some '-' from rfl),
      List.tail_cons, hpn]
    simp [habs, abs_of_neg hneg]
  · have hdata : (intToken i).data = natDigits i.toNat := by
      rw [intToken, if_neg hneg]
      rfl
    have hhead : (intToken i).data.head? ≠ some '-' := by
      rw [hdata]
      intro habs
      have := natDigits_head_digit i.toNat '-' habs
      simp [isDigitChar] at this


    rw [parseIntToken, if_neg hhead]
    have heq : parseNatToken (intToken i) = some i.toNat := by
      have h3 : intToken i = natToken i.toNat := by
        rw [intToken, if_neg hneg, natToken]
      rw [h3]
      exact parseNatToken_natToken i.toNat
    rw [heq]
    simp
    omega

/-! ### Pawn movement round trip (minigame.service.ts, claim C7) -/

/-- Coordinates of a square inside the grid (minigame.service.ts line 30);
line and column numbers both begin from 1, carried as JS integers. -/
structure Coordinates where
  lineNumber : Int
  columnNumber : Int
deriving DecidableEq, Repr

/-- A pawn movement from one square to another (minigame.service.ts line 35);
the fields are named `from` and `to` in the source. -/
structure PawnMovement where
  fromCoord : Coordinates
  toCoord : Coordinates
deriving DecidableEq, Repr

/-- Token sequence of the request sent by `MinigameService.move()`
(minigame.service.ts lines 228-232): the template literal
`MOVE dollar-from.lineNumber dollar-from.columnNumber dollar-to.lineNumber
dollar-to.columnNumber` with single spaces between the tokens. -/
def moveTokens (m : PawnMovement) : List String :=
  ["MOVE", intToken m.fromCoord.lineNumber, intToken m.fromCoord.columnNumber,
   intToken m.toCoord.lineNumber, intToken m.toCoord.columnNumber]

/-- Wire line sent by `move()`: the tokens separated by single spaces. -/
def moveLine (m : PawnMovement) : String :=
  String.intercalate " " (moveTokens m)

/-- Argument parsing of the `MOVED` branch of `MinigameService.handleCommand`
(minigame.service.ts lines 187-199): the scheme fromLine, fromColumn, toLine,
toColumn, each a Number; any remainder stays unparsed. -/
def parseMovedArgs (args : List String) : Option PawnMovement :=
  match args with
  | a :: b :: c :: d :: _ => do
      let fl ← parseIntToken a
      let fc ← parseIntToken b
      let tl ← parseIntToken c
      let tc ← parseIntToken d
      pure ⟨⟨fl, fc⟩, ⟨tl, tc⟩⟩
  | _ => none

/-- Keyword dispatch of `handleCommand` restricted to the `MOVED` grammar:
the first token is parsed as the command keyword, and the `MOVED` branch
decodes the four coordinate tokens into a `PawnMovement`. -/
def handleMovedTokens (tokens : List String) : Option PawnMovement :=
  match tokens with
  | cmd :: rest => if cmd = "MOVED" then parseMovedArgs rest else none
  | [] => none

/-- C7: encoding any pawn movement with integer coordinates produces the
request tokens MOVE fromLine fromCol toLine toCol, and decoding a movement
line carrying those same four coordinate tokens yields a `PawnMovement` equal
to the original; in particular the encoded line for from (1,2) to (3,4) is
exactly `MOVE 1 2 3 4` and decoding those tokens yields the same
coordinates. -/
theorem move_round_trip :
    (∀ m : PawnMovement,
        moveTokens m = "MOVE" :: (moveTokens m).tail
      ∧ handleMovedTokens ("MOVED" :: (moveTokens m).tail) = some m)
  ∧ moveLine ⟨⟨1, 2⟩, ⟨3, 4⟩⟩ = "MOVE 1 2 3 4"
  ∧ handleMovedTokens ["MOVED", "1", "2", "3", "4"] = some ⟨⟨1, 2⟩, ⟨3, 4⟩⟩ := by
  refine ⟨fun m => ⟨rfl, ?_⟩, by rfl, by rfl⟩
  obtain ⟨⟨fl, fc⟩, ⟨tl, tc⟩⟩ := m
  simp [handleMovedTokens, moveTokens, parseMovedArgs,
    parseIntToken_intToken]

/-! ### Chat sub-service (chat.service.ts, claim C8) -/

/-- A chat message: the author actor UID and the text content.  Modelled from
the spec and its construction site (chat.service.ts line 47): the first
argument is the author UID, then comes the message, the unparsed remainder of
the line. -/
structure Message where
  author : Nat
  content : List String
deriving DecidableEq, Repr

/-- Result of the JS default object-to-string conversion.  Modelled from the
spec: `CommandParser` belongs to the external rpt-webapp-client library and
declares no custom toString, so converting the parser object returned by
`parseTo` to a string yields the default object notation, never a command
keyword. -/
def jsObjectDefaultString : String := "[object Object]"

/-- Translation of `ChatService.handleCommand` (chat.service.ts lines 34-48):
the command keyword is parsed from the line, then line 39 compares
`String(parsedCommand)` - the string conversion of the parser object itself,
not of the parsed keyword `parsedCommand.parsedData.command` - against
'MESSAGE_FROM' and throws `BadSerCommand` when they differ; only otherwise
would the author UID be parsed and a `Message` carrying the unparsed
remainder be emitted on the messages stream. -/
def chatHandleCommand (tokens : List String) : Except String Message :=
  match tokens with
  | [] => .error "line has no command token"
  | _cmd :: rest =>
      if jsObjectDefaultString ≠ "MESSAGE_FROM" then
        .error "Only MESSAGE_FROM is known for Chat"
      else
        match rest with
        | author :: content =>
            match parseNatToken author with
            | some uid => .ok ⟨uid, content⟩
            | none => .error "author is not a number"
        | [] => .error "missing author token"

/-- C8 (code bug evidence): because line 39 stringifies the parser object,
the comparison with 'MESSAGE_FROM' fails for every line, so the Chat
sub-service throws the bad-command error on every command keyword - including
a well-formed MESSAGE_FROM line, which the claim (and the repository's own
ChatService unit test) expects to emit the message Message(55, 'Hello
world!') instead. -/
theorem chat_rejects_every_line :
    (∀ (cmd : String) (rest : List String),
        chatHandleCommand (cmd :: rest) = .error "Only MESSAGE_FROM is known for Chat")
  ∧ chatHandleCommand ["MESSAGE_FROM", "55", "Hello", "world!"]
      = .error "Only MESSAGE_FROM is known for Chat" :=
  ⟨fun cmd rest => rfl, rfl⟩

/-! ### Lobby sub-service countdown (lobby.service.ts, claim C10) -/

/-- Observable state of the `LobbyService` relevant to the countdown: the
players registry (actor UID with its isReady flag, lobby.service.ts line 34)
and the saved countdown delay, undefined while no minigame is starting
(line 43). -/
structure LobbyState where
  players : List (Nat × Bool)
  currentCountdown : Option Nat
deriving DecidableEq, Repr

/-- Freshly constructed service: no players, no countdown (lobby.service.ts
lines 45-52). -/
def initLobby : LobbyState := ⟨[], none⟩

/-- Setting the isReady flag of a registered player (lobby.service.ts lines
76 and 83); accessing a missing player entry is a JS TypeError
(`this.players[uid]` is undefined), rendered as an error that leaves no state
change behind. -/
def setReady (s : LobbyState) (uid : Nat) (ready : Bool) : Except String LobbyState :=
  if s.players.any (fun p => p.1 = uid) then
    .ok { s with players := s.players.map (fun p => if p.1 = uid then (p.1, ready) else p) }
  else .error "TypeError: player is not registered"

/-- Translation of `LobbyService.handleCommand` (lobby.service.ts lines
67-109) at token level: READY_PLAYER and WAITING_FOR_PLAYER parse a uid
argument and set the flag, BEGIN_COUNTDOWN parses the delay in milliseconds
and saves it, END_COUNTDOWN makes the countdown inaccessible again, PLAYING
and WAITING only push on the playing subject, and an unknown keyword throws
`BadSerCommand`.  A missing or non-numeric argument is a parse error. -/
def lobbyHandleCommand (s : LobbyState) (tokens : List String) : Except String LobbyState :=
  match tokens with
  | [] => .error "line has no command token"
  | cmd :: rest =>
      if cmd = "READY_PLAYER" then
        match rest with
        | u :: _ =>
            match parseNatToken u with
            | some uid => setReady s uid true
            | none => .error "uid is not a number"
        | [] => .error "missing uid argument"
      else if cmd = "WAITING_FOR_PLAYER" then
        match rest with
        | u :: _ =>
            match parseNatToken u with
            | some uid => setReady s uid false
            | none => .error "uid is not a number"
        | [] => .error "missing uid argument"
      else if cmd = "BEGIN_COUNTDOWN" then
        match rest with
        | d :: _ =>
            match parseNatToken d with
            | some ms => .ok { s with currentCountdown := some ms }
            | none => .error "delayMs is not a number"
        | [] => .error "missing delayMs argument"
      else if cmd = "END_COUNTDOWN" then .ok { s with currentCountdown := none }
      else if cmd = "PLAYING" then .ok s
      else if cmd = "WAITING" then .ok s
      else .error ("Unknown Lobby command: " ++ cmd)

/-- Translation of `LobbyService.getCurrentCountdown` (lobby.service.ts lines
139-145): returns the saved countdown delay and throws `BadLobbyState` when
none is saved; the getter performs no assignment, so the state comes back
untouched. -/
def getCurrentCountdown (s : LobbyState) : Except String Nat × LobbyState :=
  match s.currentCountdown with
  | none => (.error "No current countdown, minigame is not starting", s)
  | some ms => (.ok ms, s)

/-- Handling a sequence of Lobby event lines in arrival order. -/
def runLobby (s : LobbyState) : List (List String) → Except String LobbyState
  | [] => .ok s
  | line :: rest =>
      match lobbyHandleCommand s line with
      | .ok s1 => runLobby s1 rest
      | .error e => .error e

/-- Specification-side effect of one handled line on the active countdown,
following the claim's words: a BEGIN_COUNTDOWN line activates its parsed
delay, an END_COUNTDOWN line deactivates the countdown, every other line
leaves it as it was. -/
def specStep (acc : Option Nat) (line : List String) : Option Nat :=
  match line with
  | [] => acc
  | cmd :: rest =>
      if cmd = "BEGIN_COUNTDOWN" then
        match rest with
        | d :: _ =>
            match parseNatToken d with
            | some ms => some ms
            | none => acc
        | [] => acc
      else if cmd = "END_COUNTDOWN" then none
      else acc

/-- Specification-side active countdown after a sequence of handled lines:
the delay of the most recent BEGIN_COUNTDOWN with no END_COUNTDOWN after
it, none before any BEGIN_COUNTDOWN. -/
def specActiveCountdown (lines : List (List String)) : Option Nat :=
  lines.foldl specStep none

theorem setReady_countdown (s : LobbyState) (uid : Nat) (r : Bool) (s1 : LobbyState)
    (h : setReady s uid r = .ok s1) : s1.currentCountdown = s.currentCountdown := by
  rw [setReady] at h
  split at h
  · cases h
    rfl
  · cases h

theorem lobbyHandleCommand_countdown (s : LobbyState) (line : List String) (s1 : LobbyState)
    (h : lobbyHandleCommand s line = .ok s1) :
    s1.currentCountdown = specStep s.currentCountdown line := by
  cases line with
  | nil => cases h
  | cons cmd rest =>
      simp only [lobbyHandleCommand] at h
      repeat' split at h
      all_goals try cases h
      all_goals try simp_all [specStep]
      all_goals exact setReady_countdown _ _ _ _ h

theorem runLobby_countdown :
    ∀ (lines : List (List String)) (s s1 : LobbyState),
      runLobby s lines = .ok s1 →
      s1.currentCountdown = lines.foldl specStep s.currentCountdown := by
  intro lines
  induction lines with
  | nil =>
      intro s s1 h
      cases h
      rfl
  | cons line rest ih =>
      intro s s1 h
      rw [runLobby] at h
      cases hh : lobbyHandleCommand s line with
      | error e => rw [hh] at h; cases h
      | ok smid =>
          rw [hh] at h
          have := ih smid s1 h
          rw [this, List.foldl_cons, lobbyHandleCommand_countdown s line smid hh]

/-- C10: after any well-handled Lobby event sequence, `getCurrentCountdown`
throws `BadLobbyState` exactly when no countdown is active (no
BEGIN_COUNTDOWN yet, or an END_COUNTDOWN since), returns the delay parsed
from the most recent BEGIN_COUNTDOWN line while one is active, and never
changes the service state. -/
theorem countdown_getter_spec (lines : List (List String)) (s : LobbyState)
    (h : runLobby initLobby lines = .ok s) :
    ((getCurrentCountdown s).1
        = .error "No current countdown, minigame is not starting"
      ↔ specActiveCountdown lines = none)
  ∧ (∀ ms : Nat, specActiveCountdown lines = some ms → (getCurrentCountdown s).1 = .ok ms)
  ∧ (getCurrentCountdown s).2 = s := by
  have hcc : s.currentCountdown = specActiveCountdown lines := by
    have := runLobby_countdown lines initLobby s h
    rw [this]
    rfl
  refine ⟨?_, fun ms hms => ?_, ?_⟩
  · rw [← hcc]
    cases hv : s.currentCountdown <;> simp [getCurrentCountdown, hv]
  · rw [getCurrentCountdown]
    rw [← hcc] at hms
    rw [hms]
  · rw [getCurrentCountdown]
    cases hv : s.currentCountdown <;> rfl

/-- Witness for C10: handling BEGIN_COUNTDOWN 5000 activates a 5000 ms
countdown and the getter returns it. -/
theorem countdown_getter_spec_witness :
    runLobby initLobby [["BEGIN_COUNTDOWN", "5000"]] = .ok ⟨[], some 5000⟩
  ∧ specActiveCountdown [["BEGIN_COUNTDOWN", "5000"]] = some 5000
  ∧ (getCurrentCountdown ⟨[], some 5000⟩).1 = .ok 5000 :=
  ⟨rfl, rfl,
    (countdown_getter_spec [["BEGIN_COUNTDOWN", "5000"]] ⟨[], some 5000⟩ rfl).2.1 5000 rfl⟩

/-! ### Initial grid deep copy (minigame.service.ts getInitialGrid, claim C9)

JS arrays are heap references: the static `initialGrids` table and every grid
handed out by `getInitialGrid` are arrays of line arrays.  The heap is made
explicit: it stores line arrays at addresses, a grid value is the list of the
addresses of its lines, and `line.slice()` is the allocation of a fresh line
array holding the same values. -/

/-- The three RpT Minigames (minigame-enums.ts lines 4-6). -/
inductive MinigameType where
  | acores
  | bermudes
  | canaries
deriving DecidableEq, Repr

/-- Shortcut for the `SquareState.WHITE` value inside a grid
(initial-grids.ts line 5; the TS enum value is 1). -/
def WHITE : Nat := 1

/-- Shortcut for the `SquareState.BLACK` value inside a grid
(initial-grids.ts line 7; the TS enum value is 2). -/
def BLACK : Nat := 2

/-- Shortcut for the `SquareState.FREE` value inside a grid
(initial-grids.ts line 9; the TS enum value is 0). -/
def EMPTY : Nat := 0

/-- The static initial board game grid for each RpT Minigame
(initial-grids.ts lines 15-40). -/
def initialGrids : MinigameType → List (List Nat)
  | .acores =>
      [[WHITE, WHITE, WHITE, BLACK, BLACK],
       [WHITE, WHITE, WHITE, BLACK, BLACK],
       [WHITE, WHITE, EMPTY, BLACK, BLACK],
       [WHITE, WHITE, BLACK, BLACK, BLACK],
       [WHITE, WHITE, BLACK, BLACK, BLACK]]
  | .bermudes =>
      [[BLACK, BLACK, BLACK, BLACK, BLACK, BLACK, BLACK, BLACK, BLACK],
       [BLACK, BLACK, BLACK, BLACK, BLACK, BLACK, BLACK, BLACK, BLACK],
       [BLACK, BLACK, BLACK, BLACK, BLACK, BLACK, BLACK, BLACK, BLACK],
       [EMPTY, EMPTY, EMPTY, EMPTY, EMPTY, EMPTY, EMPTY, EMPTY, EMPTY],
       [EMPTY, EMPTY, EMPTY, EMPTY, EMPTY, EMPTY, EMPTY, EMPTY, EMPTY],
       [EMPTY, EMPTY, EMPTY, EMPTY, EMPTY, EMPTY, EMPTY, EMPTY, EMPTY],
       [WHITE, WHITE, WHITE, WHITE, WHITE, WHITE, WHITE, WHITE, WHITE],
       [WHITE, WHITE, WHITE, WHITE, WHITE, WHITE, WHITE, WHITE, WHITE],
       [WHITE, WHITE, WHITE, WHITE, WHITE, WHITE, WHITE, WHITE, WHITE]]
  | .canaries =>
      [[BLACK, BLACK, BLACK, BLACK],
       [BLACK, BLACK, BLACK, BLACK],
       [WHITE, WHITE, WHITE, WHITE],
       [WHITE, WHITE, WHITE, WHITE]]

/-- Heap of line arrays: the address of a line array is its index. -/
structure Heap where
  lines : List (List Nat)
deriving DecidableEq, Repr

/-- Dereferencing a line-array address. -/
def readLine (h : Heap) (a : Nat) : List Nat := h.lines.getD a []

/-- Allocating a fresh line array (what `line.slice()` hands back). -/
def allocLine (h : Heap) (l : List Nat) : Heap × Nat := (⟨h.lines ++ [l]⟩, h.lines.length)

/-- Allocating one fresh array per line value, returning the addresses in
order: the for-of loop pushing `line.slice()` into `gridCopy`
(minigame.service.ts lines 255-259). -/
def allocLines (h : Heap) : List (List Nat) → Heap × List Nat
  | [] => (h, [])
  | l :: rest =>
      let p1 := allocLine h l
      let p2 := allocLines p1.1 rest
      (p2.1, p1.2 :: p2.2)

/-- Reading the values of a whole grid reference. -/
def readGrid (h : Heap) (g : List Nat) : List (List Nat) := g.map (readLine h)

/-- Translation of `MinigameService.getInitialGrid` (minigame.service.ts
lines 253-262) over an explicit heap: the table's line arrays are read
through the grid reference and a slice-copy of each is pushed into a fresh
grid.  Allocation only appends to the heap, so reading the table lines
upfront equals the loop's interleaved reads. -/
def getInitialGrid (h : Heap) (tblRef : List Nat) : Heap × List Nat :=
  allocLines h (readGrid h tblRef)

/-- Mutating one square through a grid reference (`grid[i][j] = v`): the i-th
line address is fetched (a missing line makes the JS member access throw
TypeError before any write, leaving the heap unchanged) and the j-th entry of
that line array is updated in place. -/
def setSquare (h : Heap) (g : List Nat) (i j v : Nat) : Heap :=
  match g.get? i with
  | some a => ⟨h.lines.set a ((readLine h a).set j v)⟩
  | none => h

/-- A sequence of square mutations applied through one grid reference. -/
def applyMuts (h : Heap) (g : List Nat) (muts : List (Nat × Nat × Nat)) : Heap :=
  muts.foldl (fun hh m => setSquare hh g m.1 m.2.1 m.2.2) h

/-- Heap holding exactly the static table of minigame `t`. -/
def tableHeap (t : MinigameType) : Heap := ⟨initialGrids t⟩

/-- Grid reference of the static table inside `tableHeap`. -/
def tableRef (t : MinigameType) : List Nat := List.range (initialGrids t).length

/-- The grid returned by the first `getInitialGrid` call, with its heap. -/
def firstGrid (t : MinigameType) : Heap × List Nat :=
  getInitialGrid (tableHeap t) (tableRef t)

/-- Heap after mutating the first returned grid arbitrarily. -/
def mutatedHeap (t : MinigameType) (muts : List (Nat × Nat × Nat)) : Heap :=
  applyMuts (firstGrid t).1 (firstGrid t).2 muts

/-- The grid returned by a second `getInitialGrid` call made after the
mutations. -/
def secondGrid (t : MinigameType) (muts : List (Nat × Nat × Nat)) : Heap × List Nat :=
  getInitialGrid (mutatedHeap t muts) (tableRef t)

theorem allocLines_spec : ∀ (ls : List (List Nat)) (h : Heap),
    allocLines h ls = (⟨h.lines ++ ls⟩, List.range' h.lines.length ls.length) := by
  intro ls
  induction ls with
  | nil => intro h; cases h; simp [allocLines]
  | cons l rest ih =>
      intro h
      simp [allocLines, allocLine, ih, List.range'_succ]

theorem readGrid_suffix : ∀ (post pre : List (List Nat)),
    readGrid ⟨pre ++ post⟩ (List.range' pre.length post.length) = post := by
  intro post
  induction post with
  | nil => intro pre; simp [readGrid]
  | cons l rest ih =>
      intro pre
      rw [List.length_cons, List.range'_succ]
      simp only [readGrid, List.map_cons]
      congr 1
      · have hsome : (pre ++ l :: rest)[pre.length]? = some l := by
          rw [List.getElem?_append_right (Nat.le_refl _)]
          simp
        simp [readLine, List.getD, hsome]
      · have hrw : pre ++ l :: rest = (pre ++ [l]) ++ rest := by simp
        have hlen : pre.length + 1 = (pre ++ [l]).length := by simp
        rw [hrw, hlen]
        exact ih (pre ++ [l])

theorem readGrid_allocLines (h : Heap) (ls : List (List Nat)) :
    readGrid (allocLines h ls).1 (allocLines h ls).2 = ls := by
  rw [allocLines_spec]
  exact readGrid_suffix ls h.lines

theorem readLine_set_ne (lines : List (List Nat)) (b : Nat) (x : List Nat) (a : Nat)
    (hne : a ≠ b) : readLine ⟨lines.set b x⟩ a = readLine ⟨lines⟩ a := by
  simp [readLine, List.getD, List.getElem?_set_ne (Ne.symm hne)]

theorem readLine_setSquare (h : Heap) (g : List Nat) (i j v a : Nat)
    (hmem : ∀ b ∈ g, a ≠ b) :
    readLine (setSquare h g i j v) a = readLine h a := by
  rw [setSquare]
  cases hg : g.get? i with
  | none => rfl
  | some b =>
      have hb : b ∈ g := List.get?_mem hg
      cases h with
      | mk lines => exact readLine_set_ne lines b _ a (hmem b hb)

theorem readLine_applyMuts (g : List Nat) (a : Nat) (hmem : ∀ b ∈ g, a ≠ b) :
    ∀ (muts : List (Nat × Nat × Nat)) (h : Heap),
      readLine (applyMuts h g muts) a = readLine h a := by
  intro muts
  induction muts with
  | nil => intro h; rfl
  | cons m rest ih =>
      intro h
      rw [applyMuts, List.foldl_cons]
      have hh := ih (setSquare h g m.1 m.2.1 m.2.2)
      rw [applyMuts] at hh
      rw [hh, readLine_setSquare h g m.1 m.2.1 m.2.2 a hmem]

theorem readGrid_table (h : Heap) : readGrid h (List.range h.lines.length) = h.lines := by
  have hs := readGrid_suffix h.lines []
  simpa [List.range_eq_range'] using hs

theorem readGrid_mutated_table (t : MinigameType) (muts : List (Nat × Nat × Nat)) :
    readGrid (mutatedHeap t muts) (tableRef t) = initialGrids t := by
  have htbl : readGrid (tableHeap t) (tableRef t) = initialGrids t :=
    readGrid_table (tableHeap t)
  have hfst : firstGrid t
      = (⟨initialGrids t ++ readGrid (tableHeap t) (tableRef t)⟩,
         List.range' (initialGrids t).length (readGrid (tableHeap t) (tableRef t)).length) := by
    rw [firstGrid, getInitialGrid, allocLines_spec]
    rfl
  have hpoint : ∀ a ∈ tableRef t,
      readLine (mutatedHeap t muts) a = readLine (tableHeap t) a := by
    intro a ha
    have halt : a < (initialGrids t).length := by
      rw [tableRef] at ha
      exact List.mem_range.mp ha
    have hmem : ∀ b ∈ (firstGrid t).2, a ≠ b := by
      intro b hb
      rw [hfst] at hb
      have := (List.mem_range'_1.mp hb).1
      omega
    rw [mutatedHeap, readLine_applyMuts (firstGrid t).2 a hmem muts (firstGrid t).1]
    rw [hfst]
    show readLine ⟨initialGrids t ++ readGrid (tableHeap t) (tableRef t)⟩ a
      = readLine (tableHeap t) a
    simp [readLine, tableHeap, List.getD, List.getElem?_append_left halt]
  rw [readGrid]
  rw [List.map_congr_left hpoint]
  exact htbl

/-- C9: for every selected minigame type, `getInitialGrid` returns a grid
whose square values equal the static initial-grid table entry element by
element; the returned grid shares no line arrays with the table, so that
after any sequence of square mutations performed through the returned grid
the table still reads exactly as the static entry, and a second
`getInitialGrid` call still returns grids element-wise equal to it. -/
theorem initial_grid_deep_copy (t : MinigameType) (muts : List (Nat × Nat × Nat)) :
    readGrid (firstGrid t).1 (firstGrid t).2 = initialGrids t
  ∧ readGrid (mutatedHeap t muts) (tableRef t) = initialGrids t
  ∧ readGrid (secondGrid t muts).1 (secondGrid t muts).2 = initialGrids t := by
  refine ⟨?_, readGrid_mutated_table t muts, ?_⟩
  · rw [firstGrid, getInitialGrid, readGrid_allocLines]
    exact readGrid_table (tableHeap t)
  · rw [secondGrid, getInitialGrid, readGrid_allocLines]
    exact readGrid_mutated_table t muts

end RptMini
